import Mathlib

/-!
Verification of the GeoExt example repository's two logic components against
their natural-language specification:

* `GeoExt.PrintMapPanel` — a shallow embedding of the resolution/zoom
  reconciliation logic of `src/geoext/lib/GeoExt/widgets/PrintMapPanel.js`
  (`getZoomForResolution`, `updatePrintResolutions`, the `zoomIn`/`zoomOut`
  overrides, the `fitZoom`/`updatePage` re-entrancy guard, and the visible
  layer cloning done in `initComponent`).
* `GisArts.WMSLegend` — a shallow embedding of the legend update and
  legend-URL computation of `src/examples/legendpanel.js`.

Numbers that are JavaScript floats in the source (resolutions, scales,
coordinates) are modelled as rationals; all the verified properties are
order- or structure-based, not rounding-based.  External collaborator
operations (the source map's resolution-to-zoom ladder, bounds adjustment,
image-size computation) are abstract function parameters, mirroring the
spec's treatment of them as read-only collaborators.
-/

namespace GeoExt

namespace PrintMapPanel

/-- The scan loop of `getZoomForResolution`:
`for (i=0; i<len; i++) { if (printResolutions[i] < resolution) break; }`.
The resulting loop counter `i` is the first index whose entry is strictly
less than the target resolution, or the list length when no entry is. -/
def scanIndex (rs : List ℚ) (target : ℚ) : Nat :=
  rs.findIdx (fun r => decide (r < target))

/-- The supported resolution the scan selects:
`printResolutions[Math.max(0, i-1)]` (natural-number subtraction already
clamps `i - 1` at 0, matching `Math.max`).  The default value `0` is only
reached on an empty resolution list, where the source behaviour is
undefined (`printResolutions[-1]` is `undefined` in JavaScript). -/
def selectResolution (rs : List ℚ) (target : ℚ) : ℚ :=
  rs.getD (scanIndex rs target - 1) 0

/-- `getZoomForResolution`: the selected supported resolution is mapped to a
zoom level through the source map's own resolution-to-zoom conversion
(`this.sourceMap.getZoomForResolution`), an external collaborator modelled
as the abstract function `mapZoom`. -/
def getZoomForResolution (mapZoom : ℚ → Nat) (rs : List ℚ) (target : ℚ) : Nat :=
  mapZoom (selectResolution rs target)

/-- The per-scale snapping step of `updatePrintResolutions`: convert the
scale value to a resolution in the source map's units
(`OpenLayers.Util.getResolutionFromScale`, abstract `resFromScale`), find
the source map's zoom level for it (`sourceMap.getZoomForResolution`,
abstract `mapZoomForRes`), and read back the resolution of that zoom level
(`sourceMap.getResolutionForZoom`, abstract `mapResForZoom`). -/
def snapScale (resFromScale : ℚ → ℚ) (mapZoomForRes : ℚ → Nat)
    (mapResForZoom : Nat → ℚ) (s : ℚ) : ℚ :=
  mapResForZoom (mapZoomForRes (resFromScale s))

/-- `updatePrintResolutions`: starting from the empty array, iterate the
print provider's scale store in order and push each snapped resolution. -/
def updatePrintResolutions (resFromScale : ℚ → ℚ) (mapZoomForRes : ℚ → Nat)
    (mapResForZoom : Nat → ℚ) (scales : List ℚ) : List ℚ :=
  scales.foldl
    (fun acc s => acc ++ [snapScale resFromScale mapZoomForRes mapResForZoom s]) []

/-- `Array.prototype.indexOf` as used on `printResolutions`: the first
index holding the current resolution, or -1 when it does not occur. -/
def jsIndexOf (rs : List ℚ) (cur : ℚ) : Int :=
  if rs.findIdx (fun r => decide (r = cur)) < rs.length
  then (rs.findIdx (fun r => decide (r = cur)) : Int)
  else -1

/-- The index computed by the overridden `zoomIn`:
`Math.min(printResolutions.indexOf(this.getResolution()) + 1, printResolutions.length - 1)`. -/
def zoomInIdx (rs : List ℚ) (cur : ℚ) : Int :=
  min (jsIndexOf rs cur + 1) ((rs.length : Int) - 1)

/-- The index computed by the overridden `zoomOut`:
`Math.max(printResolutions.indexOf(this.getResolution()) - 1, 0)`. -/
def zoomOutIdx (rs : List ℚ) (cur : ℚ) : Int :=
  max (jsIndexOf rs cur - 1) 0

/-- The supported resolution the overridden `zoomIn` hands to
`getZoomForResolution` (default 0 only on out-of-bounds access, which the
safety theorem rules out for nonempty lists). -/
def zoomInResolution (rs : List ℚ) (cur : ℚ) : ℚ :=
  rs.getD (zoomInIdx rs cur).toNat 0

/-- The supported resolution the overridden `zoomOut` hands to
`getZoomForResolution`. -/
def zoomOutResolution (rs : List ℚ) (cur : ℚ) : ℚ :=
  rs.getD (zoomOutIdx rs cur).toNat 0

/-- State of the page/view synchronization cycle: the `_updating`
re-entrancy guard, the preview map's current zoom, and the zoom the print
page was last fitted to (`none` before any fit).  `printPage.fit(map, true)`
is modelled abstractly as recording the map's current zoom in the page. -/
structure SyncState where
  updating : Bool
  zoom : Nat
  pageZoom : Option Nat
deriving DecidableEq

/-- `updatePage`: the map's `moveend` listener; fits the print page to the
current view unless the `_updating` guard is set. -/
def updatePage (s : SyncState) : SyncState :=
  if s.updating then s else { s with pageZoom := some s.zoom }

/-- `map.zoomTo(z)`: sets the zoom; the map fires its `moveend` event
synchronously, which invokes the registered `updatePage` listener. -/
def zoomTo (z : Nat) (s : SyncState) : SyncState :=
  updatePage { s with zoom := z }

/-- `fitZoom`: sets `_updating = true`, zooms the preview map to the zoom
computed for the page's scale when it differs from the current zoom
(`this.map.getZoom() != zoom && this.map.zoomTo(zoom)`), then clears the
guard (`delete this._updating`).  The target zoom
(`getZoomForResolution` of the page scale's resolution) is the
parameter `z`. -/
def fitZoom (z : Nat) (s : SyncState) : SyncState :=
  let s1 : SyncState := { s with updating := true }
  let s2 : SyncState := if s1.zoom ≠ z then zoomTo z s1 else s1
  { s2 with updating := false }

/-- A source-map layer, as far as the cloning loop observes it: an
identity and its `getVisibility()` flag. -/
structure SourceLayer where
  id : Nat
  visible : Bool
deriving DecidableEq

/-- The result of `layer.clone()`: a fresh copy for the preview map,
modelled as a wrapper marking which source layer it copies. -/
structure ClonedLayer where
  original : SourceLayer
deriving DecidableEq

def cloneLayer (l : SourceLayer) : ClonedLayer := ⟨l⟩

/-- Result of the layer-copying step of `initComponent`: the preview
panel's layer list, alongside the (untouched) source map layer list. -/
structure InitLayersResult where
  sourceLayers : List SourceLayer
  panelLayers : List ClonedLayer
deriving DecidableEq

/-- The `initComponent` loop
`Ext.each(this.sourceMap.layers, function(layer) { var clone = layer.clone();
layer.getVisibility() === true && this.layers.push(clone); }, this)`:
each source layer is cloned and the clone pushed only when the source
layer's visibility is exactly `true`. -/
def initLayers (src : List SourceLayer) : InitLayersResult :=
  { sourceLayers := src
    panelLayers := src.foldl
      (fun acc l =>
        let clone := cloneLayer l
        if l.visible = true then acc ++ [clone] else acc) [] }

end PrintMapPanel

end GeoExt

namespace GisArts

namespace WMSLegend

/-- An `OpenLayers.Bounds` rectangle. -/
structure Bounds where
  left : ℚ
  bottom : ℚ
  right : ℚ
  top : ℚ
deriving DecidableEq

/-- The coordinate sequence of `bounds.toArray(reverseAxisOrder)` /
`bounds.toBBOX(null, reverseAxisOrder)`: `(x, y)` pairs normally,
`(y, x)` pairs when the axis order is reversed. -/
def Bounds.toArrayAx (b : Bounds) (reverse : Bool) : List ℚ :=
  if reverse then [b.bottom, b.left, b.top, b.right]
  else [b.left, b.bottom, b.right, b.top]

/-- The BBOX parameter value: `toBBOX` yields a string serialization of
the four coordinates, `toArray` an array; both in the chosen axis order. -/
inductive BBoxValue where
  | str : List ℚ → BBoxValue
  | arr : List ℚ → BBoxValue
deriving DecidableEq

/-- The owning map as the legend code observes it: `getExtent()` may be
null before the first view is set. -/
structure LegendMap where
  extent : Option Bounds
deriving DecidableEq

/-- A pixel size as returned by `layer.getImageSize(bounds)`. -/
structure Size where
  w : ℚ
  h : ℚ
deriving DecidableEq

/-- The WMS layer as observed by `GisArts.WMSLegend`: its map reference
(null when the layer is detached), its full LAYERS name list, the optional
explicit `legendLayers` sublayer list, and the `encodeBBOX` /
`reverseAxisOrder()` flags. -/
structure Layer where
  map : Option LegendMap
  layersParam : List String
  legendLayers : Option (List String)
  encodeBBOX : Bool
  reverseAxisOrder : Bool
deriving DecidableEq

/-- The `newParams` object assembled by `getLegendUrl` before it is handed
to `layer.getFullRequestString`: LAYERS is only present when the layer
declares `legendLayers`. -/
structure NewParams where
  BBOX : BBoxValue
  WIDTH : ℚ
  HEIGHT : ℚ
  REQUEST : String
  LAYERS : Option (List String)
deriving DecidableEq

/-- The parameter set of the resulting legend request. -/
structure LegendRequest where
  BBOX : BBoxValue
  WIDTH : ℚ
  HEIGHT : ℚ
  REQUEST : String
  LAYERS : List String
deriving DecidableEq

/-- Modelled from the spec: `layer.getFullRequestString(newParams)` is the
request-string construction of the external WMS-style layer collaborator
(spec §6), whose code is not part of this repository.  Per §4.1, the new
parameters override the layer's own request parameters, so the request
carries the explicit sublayer list when one was put into `newParams` and
otherwise keeps the layer's full name list. -/
def getFullRequestString (layer : Layer) (p : NewParams) : LegendRequest :=
  { BBOX := p.BBOX
    WIDTH := p.WIDTH
    HEIGHT := p.HEIGHT
    REQUEST := p.REQUEST
    LAYERS := p.LAYERS.getD layer.layersParam }

/-- `getLegendUrl`: returns the legend request only when the layer is
attached to a map whose extent is non-null; otherwise `url` stays
undefined.  The layer's `adjustBounds` and `getImageSize` operations are
external collaborator functions passed as parameters. -/
def getLegendUrl (adjustBounds : Bounds → Bounds) (getImageSize : Bounds → Size)
    (layer : Layer) : Option LegendRequest :=
  match layer.map with
  | none => none
  | some m =>
    match m.extent with
    | none => none
    | some extent =>
      let bounds := adjustBounds extent
      let imageSize := getImageSize bounds
      let rev := layer.reverseAxisOrder
      let newParams : NewParams :=
        { BBOX :=
            if layer.encodeBBOX then BBoxValue.str (bounds.toArrayAx rev)
            else BBoxValue.arr (bounds.toArrayAx rev)
          WIDTH := imageSize.w
          HEIGHT := imageSize.h
          REQUEST := "GetLegendGraphic"
          LAYERS := layer.legendLayers }
      some (getFullRequestString layer newParams)

/-- A legend panel item as the update loop observes it: whether it is the
label component (`item.isXType('label')`) and its current URL value
(set through `setUrl`; the value itself may be the undefined result of
`getLegendUrl`). -/
structure Item where
  isText : Bool
  url : Option LegendRequest
deriving DecidableEq

/-- `cmp.setUrl(url)`. -/
def setUrl (u : Option LegendRequest) (it : Item) : Item :=
  { it with url := u }

/-- Index of `textCmp = this.items.find(item => item.isXType('label'))`:
the first label item; equal to the list length when no label item exists
(`find` returns undefined, and no component is identical to undefined). -/
def textIdx (items : List Item) : Nat :=
  items.findIdx (fun it => it.isText)

/-- The `found` flag of the update loop: some iterated component is not
the text component. -/
def foundOther (items : List Item) : Bool :=
  (List.range items.length).any (fun i => decide (i ≠ textIdx items))

/-- The `this.items.each` loop body, indexed: every component other than
the one at the text index has its URL set to the current legend URL. -/
def setUrlsFrom (u : Option LegendRequest) (t : Nat) : Nat → List Item → List Item
  | _, [] => []
  | i, it :: rest =>
      (if i = t then it else setUrl u it) :: setUrlsFrom u t (i + 1) rest

/-- The item-reconciliation part of `update` (spec's
`reconcileLegendItems`): update the URL of every non-text item; if no such
item was found, append one new image item bound to the current legend
URL. -/
def reconcile (u : Option LegendRequest) (items : List Item) : List Item :=
  let updated := setUrlsFrom u (textIdx items) 0 items
  if foundOther items then updated
  else updated ++ [{ isText := false, url := u }]

/-- `update`: bypassed entirely (no item mutation, no URL assignment)
when the layer has no map (`if(!(layer && layer.map)) return;`);
otherwise runs the reconciliation against the current legend URL.
(The superclass update of the label text is the external base widget's
concern and not modelled.) -/
def update (adjustBounds : Bounds → Bounds) (getImageSize : Bounds → Size)
    (layer : Layer) (items : List Item) : List Item :=
  match layer.map with
  | none => items
  | some _ => reconcile (getLegendUrl adjustBounds getImageSize layer) items

/-- A concrete map whose extent is set, for evaluating the theorems. -/
def exMap : LegendMap :=
  { extent := some ⟨0, 0, 10, 10⟩ }

/-- A concrete map with a null extent (before the first view is set). -/
def exMapNoExtent : LegendMap :=
  { extent := none }

/-- The spec's example layer: full layer set `["a","b","c"]`, explicit
`legendLayers = ["a","b"]`. -/
def exLayerWithLegendLayers : Layer :=
  { map := some exMap
    layersParam := ["a", "b", "c"]
    legendLayers := some ["a", "b"]
    encodeBBOX := true
    reverseAxisOrder := false }

/-- The same layer without a declared `legendLayers` list. -/
def exLayerNoLegendLayers : Layer :=
  { exLayerWithLegendLayers with legendLayers := none }

/-- A detached layer (`layer.map` is null). -/
def exLayerDetached : Layer :=
  { exLayerWithLegendLayers with map := none }

/-- A layer attached to a map whose extent is still null. -/
def exLayerNoExtent : Layer :=
  { exLayerWithLegendLayers with map := some exMapNoExtent }

/-- A concrete image-size collaborator for the witnesses. -/
def exImageSize (b : Bounds) : Size :=
  ⟨b.right - b.left, b.top - b.bottom⟩

end WMSLegend

end GisArts

namespace GeoExtProofs

open GeoExt.PrintMapPanel
open GisArts.WMSLegend

/-- C1: For the supported-resolution list `[100, 50, 25, 10]`,
`zoomForResolution(60)` stops its scan at index 1 (the first entry strictly
less than 60, namely 50), selects the entry immediately before it, the
resolution 100, and maps that resolution to a zoom level via the map's
resolution-to-zoom function. -/
theorem c1_zoomForResolution_example (mapZoom : ℚ → Nat) :
    scanIndex [100, 50, 25, 10] 60 = 1 ∧
    selectResolution [100, 50, 25, 10] 60 = 100 ∧
    getZoomForResolution mapZoom [100, 50, 25, 10] 60 = mapZoom 100 := by
  refine ⟨by decide, by decide, ?_⟩
  show mapZoom (selectResolution [100, 50, 25, 10] 60) = mapZoom 100
  rw [show selectResolution [100, 50, 25, 10] 60 = 100 from by decide]

/-- The scan index never exceeds the list length. -/
lemma scanIndex_le_length (rs : List ℚ) (t : ℚ) : scanIndex rs t ≤ rs.length :=
  List.findIdx_le_length _

/-- A smaller target stops the scan no earlier: the cutoff index for the
larger target is at most the cutoff index for the smaller target. -/
lemma scanIndex_antitone (rs : List ℚ) {t1 t2 : ℚ} (h : t1 ≤ t2) :
    scanIndex rs t2 ≤ scanIndex rs t1 := by
  simp only [scanIndex]
  by_contra hcon
  push_neg at hcon
  have hi : rs.findIdx (fun r => decide (r < t1)) < rs.length :=
    lt_of_lt_of_le hcon (List.findIdx_le_length _)
  have h1 := @List.findIdx_getElem ℚ (fun r => decide (r < t1)) rs hi
  have h2 := List.not_of_lt_findIdx hcon
  simp only [decide_eq_true_eq] at h1
  simp only [decide_eq_false_iff_not] at h2
  exact h2 (lt_of_lt_of_le h1 h)

lemma selectIndex_lt_length (rs : List ℚ) (t : ℚ) (hne : rs ≠ []) :
    scanIndex rs t - 1 < rs.length := by
  have := scanIndex_le_length rs t
  have : 0 < rs.length := List.length_pos.mpr hne
  omega

/-- C2: on a nonempty supported-resolution list that is ordered descending
(the data-model invariant for `printResolutions`), the resolution selected
by `getZoomForResolution` is monotonic in the target: a smaller target
selects a supported resolution that is less than or equal to the one
selected for a larger target. -/
theorem c2_zoomForResolution_monotone (rs : List ℚ) (hne : rs ≠ [])
    (hsort : rs.Sorted (· ≥ ·)) (t1 t2 : ℚ) (h : t1 < t2) :
    selectResolution rs t1 ≤ selectResolution rs t2 := by
  have hj1 : scanIndex rs t1 - 1 < rs.length := selectIndex_lt_length rs t1 hne
  have hj2 : scanIndex rs t2 - 1 < rs.length := selectIndex_lt_length rs t2 hne
  have hle : scanIndex rs t2 ≤ scanIndex rs t1 := scanIndex_antitone rs h.le
  rw [selectResolution, selectResolution, List.getD_eq_getElem _ _ hj1,
    List.getD_eq_getElem _ _ hj2]
  rcases eq_or_lt_of_le (Nat.sub_le_sub_right hle 1) with heq | hlt
  · exact le_of_eq (by simp only [heq])
  · have := hsort.rel_get_of_lt
      (a := ⟨scanIndex rs t2 - 1, hj2⟩) (b := ⟨scanIndex rs t1 - 1, hj1⟩) hlt
    simpa [List.get_eq_getElem] using this

/-- Witness for C2 at the spec's example list with targets 20 < 60:
the selection for 20 is 25, the selection for 60 is 100. -/
theorem c2_zoomForResolution_monotone_witness :
    ([100, 50, 25, 10] : List ℚ) ≠ [] ∧
    ([100, 50, 25, 10] : List ℚ).Sorted (· ≥ ·) ∧
    (20 : ℚ) < 60 ∧
    selectResolution [100, 50, 25, 10] 20 ≤ selectResolution [100, 50, 25, 10] 60 :=
  ⟨by decide, by decide, by decide,
    c2_zoomForResolution_monotone [100, 50, 25, 10] (by decide) (by decide)
      20 60 (by decide)⟩

/-- Folding push-at-the-end over a list from any accumulator is append of
the mapped list. -/
lemma foldl_push_eq_map {α β : Type} (f : α → β) (l : List α) (acc : List β) :
    l.foldl (fun acc a => acc ++ [f a]) acc = acc ++ l.map f := by
  induction l generalizing acc with
  | nil => simp
  | cons a t ih => simp [ih, List.append_assoc]

/-- C5: `updatePrintResolutions` produces exactly the input scale list
mapped through the snap (resolution-from-scale, then zoom-for-resolution,
then resolution-for-that-zoom), one entry per input scale, in input
order. -/
theorem c5_updatePrintResolutions_spec (resFromScale : ℚ → ℚ)
    (mapZoomForRes : ℚ → Nat) (mapResForZoom : Nat → ℚ) (scales : List ℚ) :
    updatePrintResolutions resFromScale mapZoomForRes mapResForZoom scales =
      scales.map (snapScale resFromScale mapZoomForRes mapResForZoom) ∧
    (updatePrintResolutions resFromScale mapZoomForRes mapResForZoom scales).length =
      scales.length := by
  have h := foldl_push_eq_map
    (snapScale resFromScale mapZoomForRes mapResForZoom) scales []
  refine ⟨?_, ?_⟩
  · simpa [updatePrintResolutions] using h
  · simp [updatePrintResolutions, h]

/-- `indexOf` returns either -1 or an index strictly below the length. -/
lemma jsIndexOf_bounds (rs : List ℚ) (cur : ℚ) :
    -1 ≤ jsIndexOf rs cur ∧ jsIndexOf rs cur < (rs.length : Int) := by
  unfold jsIndexOf
  split <;> omega

/-- C9: on every nonempty supported-resolution list, the indices computed
by the overridden `zoomIn` and `zoomOut` are clamped into
`[0, length - 1]`, so both always select an element of the list; when the
current resolution sits at the last index (the finest entry of the
descending list) `zoomIn` stays there, and when it sits at index 0 (the
coarsest entry) `zoomOut` stays there. -/
theorem c9_zoomInOut_clamped (rs : List ℚ) (cur : ℚ) (hne : rs ≠ []) :
    0 ≤ zoomInIdx rs cur ∧ zoomInIdx rs cur < (rs.length : Int) ∧
    0 ≤ zoomOutIdx rs cur ∧ zoomOutIdx rs cur < (rs.length : Int) ∧
    zoomInResolution rs cur ∈ rs ∧ zoomOutResolution rs cur ∈ rs ∧
    (jsIndexOf rs cur = (rs.length : Int) - 1 →
      zoomInIdx rs cur = (rs.length : Int) - 1) ∧
    (jsIndexOf rs cur = 0 → zoomOutIdx rs cur = 0) := by
  have hb := jsIndexOf_bounds rs cur
  have hlen : 0 < rs.length := List.length_pos.mpr hne
  have h1 : 0 ≤ zoomInIdx rs cur := by unfold zoomInIdx; omega
  have h2 : zoomInIdx rs cur < (rs.length : Int) := by unfold zoomInIdx; omega
  have h3 : 0 ≤ zoomOutIdx rs cur := by unfold zoomOutIdx; omega
  have h4 : zoomOutIdx rs cur < (rs.length : Int) := by unfold zoomOutIdx; omega
  have hin : (zoomInIdx rs cur).toNat < rs.length := by omega
  have hout : (zoomOutIdx rs cur).toNat < rs.length := by omega
  refine ⟨h1, h2, h3, h4, ?_, ?_, ?_, ?_⟩
  · rw [zoomInResolution, List.getD_eq_getElem _ _ hin]
    exact List.getElem_mem hin
  · rw [zoomOutResolution, List.getD_eq_getElem _ _ hout]
    exact List.getElem_mem hout
  · intro hfin
    unfold zoomInIdx
    omega
  · intro hfirst
    unfold zoomOutIdx
    omega

/-- Witness for C9 at the list `[100, 50, 25, 10]` with current resolution
10 (the finest entry, index 3). -/
theorem c9_zoomInOut_clamped_witness :
    ([100, 50, 25, 10] : List ℚ) ≠ [] ∧
    (zoomInIdx [100, 50, 25, 10] 10 = 3 ∧ zoomOutIdx [100, 50, 25, 10] 10 = 2) ∧
    (0 ≤ zoomInIdx [100, 50, 25, 10] 10 ∧
      zoomInIdx [100, 50, 25, 10] 10 < (([100, 50, 25, 10] : List ℚ).length : Int) ∧
      0 ≤ zoomOutIdx [100, 50, 25, 10] 10 ∧
      zoomOutIdx [100, 50, 25, 10] 10 < (([100, 50, 25, 10] : List ℚ).length : Int) ∧
      zoomInResolution [100, 50, 25, 10] 10 ∈ ([100, 50, 25, 10] : List ℚ) ∧
      zoomOutResolution [100, 50, 25, 10] 10 ∈ ([100, 50, 25, 10] : List ℚ) ∧
      (jsIndexOf [100, 50, 25, 10] 10 = (([100, 50, 25, 10] : List ℚ).length : Int) - 1 →
        zoomInIdx [100, 50, 25, 10] 10 = (([100, 50, 25, 10] : List ℚ).length : Int) - 1) ∧
      (jsIndexOf [100, 50, 25, 10] 10 = 0 → zoomOutIdx [100, 50, 25, 10] 10 = 0)) :=
  ⟨by decide, ⟨by decide, by decide⟩,
    c9_zoomInOut_clamped [100, 50, 25, 10] 10 (by decide)⟩

/-- C6: the re-entrancy guard makes `fitZoom` loop-free.  For every
starting state and target zoom: after `fitZoom` the guard is cleared and
the map is at the target zoom; the page was not refitted during the call
even though the synchronous `moveend` listener ran (`pageZoom` is
unchanged); `updatePage` is a no-op on any state whose guard is set; and
because the guard is cleared afterwards, a subsequent view change does
propagate: running `updatePage` after `fitZoom` fits the page to the new
zoom. -/
theorem c6_fitZoom_no_feedback (z : Nat) (s : SyncState) :
    (fitZoom z s).updating = false ∧
    (fitZoom z s).zoom = z ∧
    (fitZoom z s).pageZoom = s.pageZoom ∧
    (∀ s1 : SyncState,
      updatePage { s1 with updating := true } = { s1 with updating := true }) ∧
    (updatePage (fitZoom z s)).pageZoom = some z := by
  by_cases h : s.zoom = z <;>
    simp [fitZoom, zoomTo, updatePage, h]

/-- C10: the preview panel's initial layer list is exactly the clones of
the visible source-map layers, in source order (hidden layers are skipped),
and the source map's own layer list is left unmodified. -/
theorem c10_initLayers_visible_clones (src : List SourceLayer) :
    (initLayers src).panelLayers =
      (src.filter (fun l => l.visible)).map cloneLayer ∧
    (initLayers src).sourceLayers = src := by
  refine ⟨?_, rfl⟩
  show src.foldl
      (fun acc l => if l.visible = true then acc ++ [cloneLayer l] else acc) [] =
    (src.filter (fun l => l.visible)).map cloneLayer
  have key : ∀ (l : List SourceLayer) (acc : List ClonedLayer),
      l.foldl (fun acc x => if x.visible = true then acc ++ [cloneLayer x] else acc) acc =
        acc ++ (l.filter (fun x => x.visible)).map cloneLayer := by
    intro l
    induction l with
    | nil => intro acc; simp
    | cons a t ih =>
      intro acc
      by_cases h : a.visible <;>
        simp [h, ih, List.filter_cons]
  simpa using key src []

/-- C3: when the layer's map reference is null (layer not attached to a
live map), `update` leaves the item list untouched (no mutation, no URL
assignment) and the legend-URL computation yields no result. -/
theorem c3_update_detached_no_op (adjustBounds : Bounds → Bounds)
    (getImageSize : Bounds → Size) (layer : Layer) (items : List Item)
    (h : layer.map = none) :
    update adjustBounds getImageSize layer items = items ∧
    getLegendUrl adjustBounds getImageSize layer = none := by
  constructor
  · simp [update, h]
  · simp [getLegendUrl, h]

/-- Witness for C3 at the concrete detached layer, with a nonempty item
list to exhibit the absence of mutation. -/
theorem c3_update_detached_no_op_witness :
    exLayerDetached.map = none ∧
    (update id exImageSize exLayerDetached [⟨true, none⟩] = [⟨true, none⟩] ∧
      getLegendUrl id exImageSize exLayerDetached = none) :=
  ⟨rfl, c3_update_detached_no_op id exImageSize exLayerDetached [⟨true, none⟩] rfl⟩

/-- C7: whenever the legend request is computed (layer attached, extent
set), its LAYERS value is exactly the layer's declared `legendLayers`
sublayer list when one is declared, and the layer's full name list
otherwise. -/
theorem c7_legendLayers_param (adjustBounds : Bounds → Bounds)
    (getImageSize : Bounds → Size) (layer : Layer) (m : LegendMap) (ext : Bounds)
    (h1 : layer.map = some m) (h2 : m.extent = some ext) :
    (getLegendUrl adjustBounds getImageSize layer).map (fun r => r.LAYERS) =
      some (layer.legendLayers.getD layer.layersParam) := by
  simp [getLegendUrl, h1, h2, getFullRequestString]

/-- Witness for C7: `legendLayers = ["a","b"]` with full layer set
`["a","b","c"]` emits LAYERS `["a","b"]`; without `legendLayers` the full
set `["a","b","c"]` is kept. -/
theorem c7_legendLayers_param_witness :
    ((getLegendUrl id exImageSize exLayerWithLegendLayers).map (fun r => r.LAYERS) =
      some ["a", "b"]) ∧
    ((getLegendUrl id exImageSize exLayerNoLegendLayers).map (fun r => r.LAYERS) =
      some ["a", "b", "c"]) := by
  constructor
  · have h := c7_legendLayers_param id exImageSize exLayerWithLegendLayers
      exMap ⟨0, 0, 10, 10⟩ rfl rfl
    simpa [exLayerWithLegendLayers] using h
  · have h := c7_legendLayers_param id exImageSize exLayerNoLegendLayers
      exMap ⟨0, 0, 10, 10⟩ rfl rfl
    simpa [exLayerNoLegendLayers, exLayerWithLegendLayers] using h

/-- C8: the legend-URL computation also returns no result when the layer
is attached to a map whose extent is null (before the first view is
set). -/
theorem c8_getLegendUrl_null_extent (adjustBounds : Bounds → Bounds)
    (getImageSize : Bounds → Size) (layer : Layer) (m : LegendMap)
    (h1 : layer.map = some m) (h2 : m.extent = none) :
    getLegendUrl adjustBounds getImageSize layer = none := by
  simp [getLegendUrl, h1, h2]

/-- Witness for C8 at the concrete attached layer whose map extent is
null. -/
theorem c8_getLegendUrl_null_extent_witness :
    exLayerNoExtent.map = some exMapNoExtent ∧ exMapNoExtent.extent = none ∧
    getLegendUrl id exImageSize exLayerNoExtent = none :=
  ⟨rfl, rfl,
    c8_getLegendUrl_null_extent id exImageSize exLayerNoExtent exMapNoExtent rfl rfl⟩

lemma length_setUrlsFrom (u : Option LegendRequest) (t : Nat) :
    ∀ (l : List Item) (i : Nat), (setUrlsFrom u t i l).length = l.length := by
  intro l
  induction l with
  | nil => intro i; simp [setUrlsFrom]
  | cons hd rest ih => intro i; simp [setUrlsFrom, ih (i + 1)]

/-- Setting URLs does not change which item is the label item. -/
lemma findIdx_isText_setUrlsFrom (u : Option LegendRequest) (t : Nat) :
    ∀ (l : List Item) (i : Nat),
      (setUrlsFrom u t i l).findIdx (fun it => it.isText) =
        l.findIdx (fun it => it.isText) := by
  intro l
  induction l with
  | nil => intro i; simp [setUrlsFrom]
  | cons hd rest ih =>
    intro i
    by_cases h : i = t <;>
      simp [setUrlsFrom, h, List.findIdx_cons, setUrl, ih]

lemma textIdx_setUrls (u : Option LegendRequest) (items : List Item) :
    textIdx (setUrlsFrom u (textIdx items) 0 items) = textIdx items := by
  simpa [textIdx] using findIdx_isText_setUrlsFrom u (textIdx items) items 0

/-- Re-running the URL-setting loop with the same URL changes nothing. -/
lemma setUrlsFrom_idem (u : Option LegendRequest) (t : Nat) :
    ∀ (l : List Item) (i : Nat),
      setUrlsFrom u t i (setUrlsFrom u t i l) = setUrlsFrom u t i l := by
  intro l
  induction l with
  | nil => intro i; simp [setUrlsFrom]
  | cons hd rest ih =>
    intro i
    by_cases h : i = t <;>
      simp [setUrlsFrom, h, setUrl, ih]

/-- The `found` flag only depends on the list length and the label
index. -/
lemma foundOther_congr (l1 l2 : List Item) (hlen : l1.length = l2.length)
    (ht : textIdx l1 = textIdx l2) : foundOther l1 = foundOther l2 := by
  simp [foundOther, hlen, ht]

/-- After the URL-setting loop, every item either is the label item (and
then must be a label, given the premise) or carries the supplied URL. -/
lemma all_setUrlsFrom (u : Option LegendRequest) (t : Nat) :
    ∀ (l : List Item) (i : Nat),
      (∀ j (hj : j < l.length), i + j = t → (l.get ⟨j, hj⟩).isText = true) →
      (setUrlsFrom u t i l).all (fun it => it.isText || decide (it.url = u)) = true := by
  intro l
  induction l with
  | nil => intro i _; simp [setUrlsFrom]
  | cons hd rest ih =>
    intro i hp
    simp only [setUrlsFrom, List.all_cons, Bool.and_eq_true]
    constructor
    · by_cases h : i = t
      · have hHd : hd.isText = true := by
          have := hp 0 (by simp) (by omega)
          simpa using this
        simp [h, hHd]
      · simp [h, setUrl]
    · apply ih (i + 1)
      intro j hj hsum
      have := hp (j + 1) (by simpa using Nat.succ_lt_succ hj) (by omega)
      simpa using this

/-- C4: the item reconciliation is idempotent — running it twice with the
same legend URL yields the same item list as running it once (in
particular, identical item URLs and no duplicate image item); a single
call preserves the item count when an image item already exists and
appends exactly one new image item otherwise; and after a call every
non-label item carries the current legend URL. -/
theorem c4_reconcile_idempotent (u : Option LegendRequest) (items : List Item) :
    reconcile u (reconcile u items) = reconcile u items ∧
    (reconcile u items).length =
      (if foundOther items then items.length else items.length + 1) ∧
    (reconcile u items).all (fun it => it.isText || decide (it.url = u)) = true := by
  have hlen := length_setUrlsFrom u (textIdx items) items 0
  have htid := textIdx_setUrls u items
  have hidem := setUrlsFrom_idem u (textIdx items) items 0
  have hall : (setUrlsFrom u (textIdx items) 0 items).all
      (fun it => it.isText || decide (it.url = u)) = true := by
    apply all_setUrlsFrom
    intro j hj hsum
    have hjt : j = textIdx items := by omega
    subst hjt
    have hfi : items.findIdx (fun it => it.isText) < items.length := by
      simpa [textIdx] using hj
    have := @List.findIdx_getElem _ (fun it => it.isText) items hfi
    simpa [textIdx, List.get_eq_getElem] using this
  by_cases hf : foundOther items
  · have hfound1 : foundOther (setUrlsFrom u (textIdx items) 0 items) = true := by
      rw [foundOther_congr _ items hlen htid]
      exact hf
    refine ⟨?_, ?_, ?_⟩
    · simp only [reconcile, hf, if_true, hfound1, htid, hidem]
    · simp [reconcile, hf, hlen]
    · simpa [reconcile, hf] using hall
  · have hone : ∀ i, i < items.length → i = textIdx items := by
      intro i hi
      by_contra hne
      apply hf
      simp only [foundOther, List.any_eq_true, List.mem_range]
      exact ⟨i, hi, by simpa using hne⟩
    rcases items with _ | ⟨it, _ | ⟨b, rest⟩⟩
    · refine ⟨?_, ?_, ?_⟩
      · simp [reconcile, foundOther, textIdx, setUrlsFrom, setUrl,
          List.findIdx_cons, List.range_succ]
      · simp [reconcile, foundOther, setUrlsFrom, textIdx]
      · simp [reconcile, foundOther, setUrlsFrom]
    · have hT : it.isText = true := by
        by_contra hT
        have h0 := (hone 0 (by simp)).symm
        simp [textIdx, List.findIdx_cons, hT] at h0
      refine ⟨?_, ?_, ?_⟩
      · simp [reconcile, foundOther, textIdx, setUrlsFrom, setUrl,
          List.findIdx_cons, hT, List.range_succ]
      · simp [reconcile, foundOther, textIdx, setUrlsFrom, List.findIdx_cons, hT,
          List.range_succ]
      · simp [reconcile, foundOther, textIdx, setUrlsFrom, setUrl,
          List.findIdx_cons, hT, List.range_succ]
    · exfalso
      have h0 := hone 0 (by simp)
      have h1 := hone 1 (by simp)
      omega

end GeoExtProofs
